import Mathlib

/-!
# Verification of the YAR game core (src/yar/main.c)

Shallow embedding of the game-state update loop of the arcade shooter in
`src/yar/main.c`.  C `float` values are modelled as exact rationals (`ℚ`).
`sqrtf` is modelled as an abstract parameter `sqrtFn : ℚ → ℚ` wherever its
result feeds further arithmetic (direction normalization); the collision
test `sqrtf d2 < rsum` is modelled by its exact real-square-root semantics
`0 < rsum ∧ d2 < rsum * rsum`, which is equivalent for the nonnegative
arguments `d2 = dx*dx + dy*dy` the program always passes.
raylib's `GetRandomValue(lo, hi)`, an external collaborator, is modelled
by an oracle: a list of integers whose next element is clamped into
`[lo, hi]`, reflecting the documented contract that the result always
lies in that inclusive range.
-/

namespace Yar

/-- 2D float vector (raylib `Vector2`), modelled over `ℚ`. -/
structure Vec2 where
  x : ℚ
  y : ℚ
deriving DecidableEq, Repr

/-- `GameObject` from main.c: position, velocity, radius, active flag, color.
Colors carry no logic; they are modelled as opaque numeric tags. -/
structure GameObject where
  position : Vec2
  velocity : Vec2
  radius : ℚ
  active : Bool
  color : ℕ
deriving DecidableEq, Repr

/-- `GameState` from main.c. The C arrays `bullets[20]` and `enemies[10]`
are modelled as lists; well-formed states have lengths 20 and 10. -/
structure GameState where
  player : GameObject
  bullets : List GameObject
  enemies : List GameObject
  score : ℤ
  gameOver : Bool
deriving DecidableEq, Repr

def SCREEN_WIDTH : ℤ := 800
def SCREEN_HEIGHT : ℤ := 600
def PLAYER_SPEED : ℚ := 200
def BULLET_SPEED : ℚ := 400
def ENEMY_SPEED : ℚ := 100
def MAX_BULLETS : ℕ := 20
def MAX_ENEMIES : ℕ := 10

def BLUE : ℕ := 0
def YELLOW : ℕ := 1
def RED : ℕ := 2

/-- Model of raylib `GetRandomValue(lo, hi)`: draws the next oracle value,
clamped into the inclusive range `[lo, hi]` (the documented contract of the
external random source); an exhausted oracle yields `lo`. -/
def getRandomValue (r : List ℤ) (lo hi : ℤ) : ℤ × List ℤ :=
  match r with
  | [] => (lo, [])
  | v :: rest => (max lo (min hi v), rest)

/-- The enemy-initialization loop of `InitGame` (main.c lines 44-53):
each enemy gets a random position in the field, zero velocity, radius 15,
active, red. Draw order per enemy: x then y. -/
def initEnemies : ℕ → List ℤ → List GameObject × List ℤ
  | 0, r => ([], r)
  | n + 1, r =>
    let xr := getRandomValue r 0 SCREEN_WIDTH
    let yr := getRandomValue xr.2 0 SCREEN_HEIGHT
    let rest := initEnemies n yr.2
    (⟨⟨(xr.1 : ℚ), (yr.1 : ℚ)⟩, ⟨0, 0⟩, 15, true, RED⟩ :: rest.1, rest.2)

/-- `InitGame` (main.c lines 28-57). The C code leaves bullet positions and
velocities uninitialized (it only sets `active`, `radius`, `color`), so the
model keeps whatever values the incoming state holds for those fields. -/
def InitGame (g : GameState) (r : List ℤ) : GameState × List ℤ :=
  let player : GameObject :=
    ⟨⟨((SCREEN_WIDTH / 2 : ℤ) : ℚ), ((SCREEN_HEIGHT / 2 : ℤ) : ℚ)⟩, ⟨0, 0⟩, 20, true, BLUE⟩
  let bullets := g.bullets.map (fun b => { b with radius := 5, active := false, color := YELLOW })
  let enemies := initEnemies MAX_ENEMIES r
  (⟨player, bullets, enemies.1, 0, false⟩, enemies.2)

/-- Input key set for one frame; `up` covers W/KEY_UP, etc. (the code ORs
the two aliases of each direction). -/
structure Keys where
  up : Bool
  down : Bool
  left : Bool
  right : Bool
deriving DecidableEq, Repr

/-- One axis of the movement accumulation in `UpdatePlayer`:
the negative-direction key adds -1, the positive-direction key adds +1. -/
def moveAxis (negKey posKey : Bool) : ℚ :=
  (if negKey then -1 else 0) + (if posKey then 1 else 0)

/-- The movement vector of `UpdatePlayer` (main.c lines 60-71), including
the diagonal scaling by the float literal `0.707f` (modelled as 707/1000)
when both components are nonzero. -/
def moveVec (k : Keys) : Vec2 :=
  let mx := moveAxis k.left k.right
  let my := moveAxis k.up k.down
  if mx ≠ 0 ∧ my ≠ 0 then ⟨mx * 0.707, my * 0.707⟩ else ⟨mx, my⟩

/-- The per-axis keep-on-screen logic of `UpdatePlayer` (main.c lines 78-85):
`if (v < r) v = r; if (v > dim - r) v = dim - r;`. -/
def clampAxis (v r dim : ℚ) : ℚ :=
  let v1 := if v < r then r else v
  if v1 > dim - r then dim - r else v1

/-- `UpdatePlayer` (main.c lines 59-86). -/
def UpdatePlayer (g : GameState) (k : Keys) (deltaTime : ℚ) : GameState :=
  let m := moveVec k
  let px := g.player.position.x + m.x * PLAYER_SPEED * deltaTime
  let py := g.player.position.y + m.y * PLAYER_SPEED * deltaTime
  let r := g.player.radius
  { g with player := { g.player with
      position := ⟨clampAxis px r (SCREEN_WIDTH : ℚ), clampAxis py r (SCREEN_HEIGHT : ℚ)⟩ } }

/-- The aim-direction computation of `FireBullet` (main.c lines 89-99):
direction from player to mouse, normalized by `sqrtFn` of the squared
length when that length is positive. -/
def fireDir (sqrtFn : ℚ → ℚ) (playerPos mousePos : Vec2) : Vec2 :=
  let dx := mousePos.x - playerPos.x
  let dy := mousePos.y - playerPos.y
  let length := sqrtFn (dx * dx + dy * dy)
  if length > 0 then ⟨dx / length, dy / length⟩ else ⟨dx, dy⟩

/-- The slot-scan loop of `FireBullet` (main.c lines 102-110): first
inactive slot (ascending index) receives the new bullet; `break` stops
the scan, so later slots are untouched. -/
def fireScan (pos vel : Vec2) : List GameObject → List GameObject
  | [] => []
  | b :: bs =>
    if b.active then b :: fireScan pos vel bs
    else { b with position := pos, velocity := vel, active := true } :: bs

/-- `FireBullet` (main.c lines 88-111); the mouse position is an input. -/
def FireBullet (sqrtFn : ℚ → ℚ) (g : GameState) (mousePos : Vec2) : GameState :=
  let d := fireDir sqrtFn g.player.position mousePos
  { g with bullets :=
      fireScan g.player.position ⟨d.x * BULLET_SPEED, d.y * BULLET_SPEED⟩ g.bullets }

/-- Per-bullet body of `UpdateBullets` (main.c lines 114-125): active
bullets advance by velocity × dt and deactivate if any coordinate leaves
`[0, 800] × [0, 600]` strictly. -/
def updateBullet (deltaTime : ℚ) (b : GameObject) : GameObject :=
  if b.active then
    let p : Vec2 := ⟨b.position.x + b.velocity.x * deltaTime,
                     b.position.y + b.velocity.y * deltaTime⟩
    if p.x < 0 ∨ p.x > (SCREEN_WIDTH : ℚ) ∨ p.y < 0 ∨ p.y > (SCREEN_HEIGHT : ℚ) then
      { b with position := p, active := false }
    else
      { b with position := p }
  else b

/-- `UpdateBullets` (main.c lines 113-126). -/
def UpdateBullets (g : GameState) (deltaTime : ℚ) : GameState :=
  { g with bullets := g.bullets.map (updateBullet deltaTime) }

/-- Per-enemy body of `UpdateEnemies` (main.c lines 129-146): active
enemies home toward the player at speed 100, direction normalized via
`sqrtFn` when the length is positive. -/
def updateEnemy (sqrtFn : ℚ → ℚ) (playerPos : Vec2) (deltaTime : ℚ) (e : GameObject) :
    GameObject :=
  if e.active then
    let dx := playerPos.x - e.position.x
    let dy := playerPos.y - e.position.y
    let length := sqrtFn (dx * dx + dy * dy)
    let d : Vec2 := if length > 0 then ⟨dx / length, dy / length⟩ else ⟨dx, dy⟩
    { e with position := ⟨e.position.x + d.x * ENEMY_SPEED * deltaTime,
                          e.position.y + d.y * ENEMY_SPEED * deltaTime⟩ }
  else e

/-- `UpdateEnemies` (main.c lines 128-147). -/
def UpdateEnemies (sqrtFn : ℚ → ℚ) (g : GameState) (deltaTime : ℚ) : GameState :=
  { g with enemies := g.enemies.map (updateEnemy sqrtFn g.player.position deltaTime) }

/-- Squared Euclidean distance, written exactly as the C code computes the
argument of `sqrtf`: `(ax-bx)*(ax-bx) + (ay-by)*(ay-by)`. -/
def dist2 (p q : Vec2) : ℚ :=
  (p.x - q.x) * (p.x - q.x) + (p.y - q.y) * (p.y - q.y)

/-- The collision test `sqrtf d2 < rsum` of main.c, under exact real
square-root semantics: for `d2 ≥ 0` (always true of a sum of squares),
`Real.sqrt d2 < rsum ↔ 0 < rsum ∧ d2 < rsum * rsum`. -/
def distLt (d2 rsum : ℚ) : Bool :=
  decide (0 < rsum) && decide (d2 < rsum * rsum)

/-- The respawn-at-random-edge placement of `CheckCollisions`
(main.c lines 167-182): edge drawn from `[0,3]`, then the free coordinate
drawn across the matching field dimension; the enemy lands 50 units beyond
the chosen edge. -/
def respawnPos (r : List ℤ) : Vec2 × List ℤ :=
  let er := getRandomValue r 0 3
  if er.1 = 0 then
    let xr := getRandomValue er.2 0 SCREEN_WIDTH
    (⟨(xr.1 : ℚ), -50⟩, xr.2)
  else if er.1 = 1 then
    let yr := getRandomValue er.2 0 SCREEN_HEIGHT
    (⟨(SCREEN_WIDTH : ℚ) + 50, (yr.1 : ℚ)⟩, yr.2)
  else if er.1 = 2 then
    let xr := getRandomValue er.2 0 SCREEN_WIDTH
    (⟨(xr.1 : ℚ), (SCREEN_HEIGHT : ℚ) + 50⟩, xr.2)
  else
    let yr := getRandomValue er.2 0 SCREEN_HEIGHT
    (⟨-50, (yr.1 : ℚ)⟩, yr.2)

/-- Result of running one bullet's inner enemy loop. -/
structure HitsOut where
  enemies : List GameObject
  score : ℤ
  rng : List ℤ
  hitAny : Bool
deriving DecidableEq, Repr

/-- Inner loop of the bullet-enemy pass of `CheckCollisions`
(main.c lines 153-186) for one bullet `b`: every active enemy within
radius sum of the bullet's (fixed) position is respawned at a random edge
and scores 10.  Note the C loop has no `break`: setting
`bullets[i].active = false` does not stop the scan, and the hit test never
re-reads the bullet's active flag, so later enemies are still tested; the
enemy is set inactive and immediately reactivated within the same
iteration, which nets to `active := true` with the new position. -/
def bulletHitsEnemies (b : GameObject) : List GameObject → ℤ → List ℤ → HitsOut
  | [], score, r => ⟨[], score, r, false⟩
  | e :: es, score, r =>
    if e.active = true ∧ distLt (dist2 b.position e.position) (b.radius + e.radius) = true then
      let pr := respawnPos r
      let out := bulletHitsEnemies b es (score + 10) pr.2
      ⟨{ e with position := pr.1, active := true } :: out.enemies, out.score, out.rng, true⟩
    else
      let out := bulletHitsEnemies b es score r
      ⟨e :: out.enemies, out.score, out.rng, out.hitAny⟩

/-- Result of the full bullet-enemy pass. -/
structure PassOut where
  bullets : List GameObject
  enemies : List GameObject
  score : ℤ
  rng : List ℤ
deriving DecidableEq, Repr

/-- Outer loop of the bullet-enemy pass (main.c lines 151-188): the
per-bullet active guard is evaluated once, before the inner loop; a bullet
that registers any hit ends the pass inactive. -/
def bulletEnemyPass : List GameObject → List GameObject → ℤ → List ℤ → PassOut
  | [], es, score, r => ⟨[], es, score, r⟩
  | b :: bs, es, score, r =>
    if b.active = true then
      let h := bulletHitsEnemies b es score r
      let rest := bulletEnemyPass bs h.enemies h.score h.rng
      ⟨{ b with active := !h.hitAny } :: rest.bullets, rest.enemies, rest.score, rest.rng⟩
    else
      let rest := bulletEnemyPass bs es score r
      ⟨b :: rest.bullets, rest.enemies, rest.score, rest.rng⟩

/-- One step of the player-enemy pass of `CheckCollisions`
(main.c lines 191-204): an active enemy within radius sum of the player
sets the game-over flag; otherwise the flag is left as it was. -/
def playerEnemyStep (player : GameObject) (gameOver : Bool) (e : GameObject) : Bool :=
  if e.active = true ∧
      distLt (dist2 player.position e.position) (player.radius + e.radius) = true then
    true
  else gameOver

/-- `CheckCollisions` (main.c lines 149-205): the bullet-enemy pass, then
the player-enemy pass over the (possibly respawned) enemies. -/
def CheckCollisions (g : GameState) (r : List ℤ) : GameState × List ℤ :=
  let c := bulletEnemyPass g.bullets g.enemies g.score r
  let go := c.enemies.foldl (playerEnemyStep g.player) g.gameOver
  (⟨g.player, c.bullets, c.enemies, c.score, go⟩, c.rng)

/-- Per-frame input snapshot supplied by the window/input provider. -/
structure Input where
  keys : Keys
  deltaTime : ℚ
  mousePos : Vec2
  firePressed : Bool
  restartPressed : Bool
deriving Repr

/-- The state-relevant body of one iteration of the main loop
(main.c lines 251-273): while not game over, run the five update
functions in order (firing only on a mouse press); once game over, only a
restart press changes the state, by re-running `InitGame`.  Rendering and
the quit key do not touch the `GameState`. -/
def frame (sqrtFn : ℚ → ℚ) (g : GameState) (inp : Input) (r : List ℤ) :
    GameState × List ℤ :=
  if g.gameOver = false then
    let g1 := UpdatePlayer g inp.keys inp.deltaTime
    let g2 := if inp.firePressed then FireBullet sqrtFn g1 inp.mousePos else g1
    let g3 := UpdateBullets g2 inp.deltaTime
    let g4 := UpdateEnemies sqrtFn g3 inp.deltaTime
    CheckCollisions g4 r
  else if inp.restartPressed then InitGame g r
  else (g, r)

/-- Well-formed pools: the C arrays have fixed sizes 20 and 10. -/
def WF (g : GameState) : Prop :=
  g.bullets.length = MAX_BULLETS ∧ g.enemies.length = MAX_ENEMIES

/-- States reachable at frame boundaries: `InitGame` from any well-formed
(arbitrarily initialized) state, then any number of main-loop iterations
with arbitrary inputs and random draws. -/
inductive Reachable (sqrtFn : ℚ → ℚ) : GameState → Prop
  | init (g0 : GameState) (r : List ℤ) : WF g0 → Reachable sqrtFn (InitGame g0 r).1
  | step (g : GameState) (inp : Input) (r : List ℤ) :
      Reachable sqrtFn g → Reachable sqrtFn (frame sqrtFn g inp r).1

/-- A concrete square root on `ℚ`, exact on perfect squares of naturals;
used to instantiate the abstract `sqrtFn` in concrete executions. -/
def ratSqrt (q : ℚ) : ℚ := (Nat.sqrt q.num.toNat : ℚ)

/-! ## Helper lemmas -/

lemma bulletHitsEnemies_score (b : GameObject) (es : List GameObject) (s : ℤ) (r : List ℤ) :
    ∃ n : ℕ, n ≤ es.length ∧ (bulletHitsEnemies b es s r).score = s + 10 * n := by
  induction es generalizing s r with
  | nil => exact ⟨0, by simp, by simp [bulletHitsEnemies]⟩
  | cons e es ih =>
    by_cases hc : e.active = true ∧
        distLt (dist2 b.position e.position) (b.radius + e.radius) = true
    · obtain ⟨n, hn, hs⟩ := ih (s + 10) (respawnPos r).2
      refine ⟨n + 1, by simpa using Nat.succ_le_succ hn, ?_⟩
      simp only [bulletHitsEnemies, if_pos hc]
      rw [hs]; push_cast; ring
    · obtain ⟨n, hn, hs⟩ := ih s r
      refine ⟨n, Nat.le_succ_of_le hn, ?_⟩
      simp only [bulletHitsEnemies, if_neg hc]
      exact hs

lemma bulletEnemyPass_score (bs es : List GameObject) (s : ℤ) (r : List ℤ) :
    ∃ n : ℕ, (bulletEnemyPass bs es s r).score = s + 10 * n := by
  induction bs generalizing es s r with
  | nil => exact ⟨0, by simp [bulletEnemyPass]⟩
  | cons b bs ih =>
    by_cases hb : b.active = true
    · obtain ⟨m, _, hm⟩ := bulletHitsEnemies_score b es s r
      obtain ⟨n, hn⟩ := ih (bulletHitsEnemies b es s r).enemies
        (bulletHitsEnemies b es s r).score (bulletHitsEnemies b es s r).rng
      refine ⟨m + n, ?_⟩
      simp only [bulletEnemyPass, if_pos hb]
      rw [hn, hm]; push_cast; ring
    · obtain ⟨n, hn⟩ := ih es s r
      refine ⟨n, ?_⟩
      simp only [bulletEnemyPass, if_neg hb]
      exact hn

lemma initEnemies_length (n : ℕ) (r : List ℤ) : (initEnemies n r).1.length = n := by
  induction n generalizing r with
  | zero => simp [initEnemies]
  | succ n ih => simp [initEnemies, ih]

lemma initEnemies_active (n : ℕ) (r : List ℤ) :
    ∀ e ∈ (initEnemies n r).1, e.active = true := by
  induction n generalizing r with
  | zero => simp [initEnemies]
  | succ n ih =>
    intro e he
    simp only [initEnemies, List.mem_cons] at he
    rcases he with he | he
    · rw [he]
    · exact ih _ e he

lemma updateEnemy_active (sq : ℚ → ℚ) (p : Vec2) (dt : ℚ) (e : GameObject) :
    (updateEnemy sq p dt e).active = e.active := by
  unfold updateEnemy; split <;> rfl

lemma bulletHitsEnemies_enemies_length (b : GameObject) (es : List GameObject)
    (s : ℤ) (r : List ℤ) :
    (bulletHitsEnemies b es s r).enemies.length = es.length := by
  induction es generalizing s r with
  | nil => simp [bulletHitsEnemies]
  | cons e es ih =>
    by_cases hc : e.active = true ∧
        distLt (dist2 b.position e.position) (b.radius + e.radius) = true
    · simp only [bulletHitsEnemies, if_pos hc, List.length_cons, ih]
    · simp only [bulletHitsEnemies, if_neg hc, List.length_cons, ih]

lemma bulletHitsEnemies_active (b : GameObject) (es : List GameObject) (s : ℤ)
    (r : List ℤ) (h : ∀ e ∈ es, e.active = true) :
    ∀ e' ∈ (bulletHitsEnemies b es s r).enemies, e'.active = true := by
  induction es generalizing s r with
  | nil => simp [bulletHitsEnemies]
  | cons e es ih =>
    intro e' he'
    by_cases hc : e.active = true ∧
        distLt (dist2 b.position e.position) (b.radius + e.radius) = true
    · simp only [bulletHitsEnemies, if_pos hc, List.mem_cons] at he'
      rcases he' with he' | he'
      · rw [he']
      · exact ih (s + 10) (respawnPos r).2 (fun x hx => h x (List.mem_cons_of_mem _ hx)) e' he'
    · simp only [bulletHitsEnemies, if_neg hc, List.mem_cons] at he'
      rcases he' with he' | he'
      · rw [he']; exact h e (List.mem_cons_self _ _)
      · exact ih s r (fun x hx => h x (List.mem_cons_of_mem _ hx)) e' he'

lemma bulletEnemyPass_enemies_length (bs es : List GameObject) (s : ℤ) (r : List ℤ) :
    (bulletEnemyPass bs es s r).enemies.length = es.length := by
  induction bs generalizing es s r with
  | nil => simp [bulletEnemyPass]
  | cons b bs ih =>
    by_cases hb : b.active = true
    · simp only [bulletEnemyPass, if_pos hb, ih, bulletHitsEnemies_enemies_length]
    · simp only [bulletEnemyPass, if_neg hb, ih]

lemma bulletEnemyPass_active (bs es : List GameObject) (s : ℤ) (r : List ℤ)
    (h : ∀ e ∈ es, e.active = true) :
    ∀ e' ∈ (bulletEnemyPass bs es s r).enemies, e'.active = true := by
  induction bs generalizing es s r with
  | nil => simpa [bulletEnemyPass] using h
  | cons b bs ih =>
    by_cases hb : b.active = true
    · simp only [bulletEnemyPass, if_pos hb]
      exact ih _ _ _ (bulletHitsEnemies_active b es s r h)
    · simp only [bulletEnemyPass, if_neg hb]
      exact ih es s r h

lemma CheckCollisions_player (g : GameState) (r : List ℤ) :
    ((CheckCollisions g r).1).player = g.player := rfl

lemma CheckCollisions_enemies_length (g : GameState) (r : List ℤ) :
    ((CheckCollisions g r).1).enemies.length = g.enemies.length :=
  bulletEnemyPass_enemies_length g.bullets g.enemies g.score r

lemma CheckCollisions_active (g : GameState) (r : List ℤ)
    (h : ∀ e ∈ g.enemies, e.active = true) :
    ∀ e' ∈ ((CheckCollisions g r).1).enemies, e'.active = true :=
  bulletEnemyPass_active g.bullets g.enemies g.score r h

/-- The frame-boundary enemy-pool invariant: 10 slots, all active. -/
def EnemyInv (g : GameState) : Prop :=
  g.enemies.length = MAX_ENEMIES ∧ ∀ e ∈ g.enemies, e.active = true

lemma InitGame_enemyInv (g : GameState) (r : List ℤ) : EnemyInv (InitGame g r).1 :=
  ⟨initEnemies_length MAX_ENEMIES r, initEnemies_active MAX_ENEMIES r⟩

lemma UpdateEnemies_enemyInv (sq : ℚ → ℚ) (g : GameState) (dt : ℚ)
    (h : EnemyInv g) : EnemyInv (UpdateEnemies sq g dt) := by
  refine ⟨by simpa [UpdateEnemies] using h.1, ?_⟩
  intro e' he'
  simp only [UpdateEnemies, List.mem_map] at he'
  obtain ⟨e, he, rfl⟩ := he'
  rw [updateEnemy_active]
  exact h.2 e he

lemma frame_enemyInv (sq : ℚ → ℚ) (g : GameState) (inp : Input) (r : List ℤ)
    (h : EnemyInv g) : EnemyInv (frame sq g inp r).1 := by
  unfold frame
  by_cases hgo : g.gameOver = false
  · simp only [if_pos hgo]
    set g1 := UpdatePlayer g inp.keys inp.deltaTime with hg1
    have h1 : EnemyInv g1 := h
    set g2 := if inp.firePressed then FireBullet sq g1 inp.mousePos else g1 with hg2
    have h2 : EnemyInv g2 := by
      by_cases hf : inp.firePressed <;> simp only [hg2, if_pos, if_neg, hf, ite_true, ite_false] <;> exact h1
    have h3 : EnemyInv (UpdateBullets g2 inp.deltaTime) := h2
    have h4 : EnemyInv (UpdateEnemies sq (UpdateBullets g2 inp.deltaTime) inp.deltaTime) :=
      UpdateEnemies_enemyInv sq _ inp.deltaTime h3
    exact ⟨(CheckCollisions_enemies_length _ r).trans h4.1, CheckCollisions_active _ r h4.2⟩
  · simp only [if_neg hgo]
    by_cases hr : inp.restartPressed
    · simp only [if_pos hr]
      exact InitGame_enemyInv g r
    · simp only [if_neg hr]
      exact h

lemma reachable_enemyInv {sq : ℚ → ℚ} {g : GameState} (h : Reachable sq g) :
    EnemyInv g := by
  induction h with
  | init g0 r hwf => exact InitGame_enemyInv g0 r
  | step g inp r hg ih => exact frame_enemyInv sq g inp r ih

/-! ## Claims -/

/-- C7: the score is 0 after `InitGame`; `UpdatePlayer`, `FireBullet`,
`UpdateBullets` and `UpdateEnemies` never change it; `CheckCollisions`
adds exactly 10 per registered kill (so the new score is the old score
plus 10·n for some count n of kills, and in particular never decreases). -/
theorem C7_score_init_zero_monotone_plus10 :
    (∀ g r, ((InitGame g r).1).score = 0) ∧
    (∀ g k dt, (UpdatePlayer g k dt).score = g.score) ∧
    (∀ sq g m, (FireBullet sq g m).score = g.score) ∧
    (∀ g dt, (UpdateBullets g dt).score = g.score) ∧
    (∀ sq g dt, (UpdateEnemies sq g dt).score = g.score) ∧
    (∀ g r, ∃ n : ℕ, ((CheckCollisions g r).1).score = g.score + 10 * n ∧
        g.score ≤ ((CheckCollisions g r).1).score) := by
  refine ⟨fun g r => rfl, fun g k dt => rfl, fun sq g m => rfl, fun g dt => rfl,
    fun sq g dt => rfl, fun g r => ?_⟩
  obtain ⟨n, hn⟩ := bulletEnemyPass_score g.bullets g.enemies g.score r
  refine ⟨n, hn, ?_⟩
  have : ((CheckCollisions g r).1).score = g.score + 10 * n := hn
  rw [this]
  have hnn : (0 : ℤ) ≤ 10 * n := by positivity
  omega

/-- C2: after `InitGame` the enemy pool has exactly `MAX_ENEMIES = 10`
slots, all active; every frame operation keeps the pool length and keeps
every enemy active; hence every reachable frame-boundary state has 10
active enemies. -/
theorem C2_enemies_always_ten_and_active :
    (∀ sq g, Reachable sq g → g.enemies.length = MAX_ENEMIES ∧
        ∀ e ∈ g.enemies, e.active = true) ∧
    (∀ g r, ((InitGame g r).1).enemies.length = MAX_ENEMIES ∧
        ∀ e ∈ ((InitGame g r).1).enemies, e.active = true) ∧
    (∀ g k dt, (UpdatePlayer g k dt).enemies = g.enemies) ∧
    (∀ sq g m, (FireBullet sq g m).enemies = g.enemies) ∧
    (∀ g dt, (UpdateBullets g dt).enemies = g.enemies) ∧
    (∀ sq g dt, (UpdateEnemies sq g dt).enemies.length = g.enemies.length ∧
        ((∀ e ∈ g.enemies, e.active = true) →
          ∀ e ∈ (UpdateEnemies sq g dt).enemies, e.active = true)) ∧
    (∀ g r, ((CheckCollisions g r).1).enemies.length = g.enemies.length ∧
        ((∀ e ∈ g.enemies, e.active = true) →
          ∀ e ∈ ((CheckCollisions g r).1).enemies, e.active = true)) := by
  refine ⟨fun sq g h => reachable_enemyInv h, fun g r => InitGame_enemyInv g r,
    fun g k dt => rfl, fun sq g m => rfl, fun g dt => rfl,
    fun sq g dt => ?_, fun g r => ⟨CheckCollisions_enemies_length g r,
      fun h => CheckCollisions_active g r h⟩⟩
  constructor
  · simp [UpdateEnemies]
  · intro h'
    intro e he
    simp only [UpdateEnemies, List.mem_map] at he
    obtain ⟨e0, he0, rfl⟩ := he
    rw [updateEnemy_active]
    exact h' e0 he0

/-! ## Concrete states for witnesses and counterexamples -/

/-- An arbitrary (all-zero) object, standing for uninitialized memory. -/
def bZero : GameObject := ⟨⟨0, 0⟩, ⟨0, 0⟩, 0, false, 0⟩

/-- An arbitrary well-formed pre-`InitGame` state (uninitialized memory). -/
def gZero : GameState :=
  ⟨bZero, List.replicate MAX_BULLETS bZero, List.replicate MAX_ENEMIES bZero, 0, false⟩

/-- A random oracle that places enemies 0 and 1 at the field center
(the player's spawn position) and the rest at the origin. -/
def r0C : List ℤ := [400, 300, 400, 300]

/-- The concrete post-`InitGame` state drawn from `r0C`. -/
def gInit : GameState := (InitGame gZero r0C).1

/-- No keys held. -/
def k0 : Keys := ⟨false, false, false, false⟩

lemma gInit_player : gInit.player = ⟨⟨400, 300⟩, ⟨0, 0⟩, 20, true, BLUE⟩ := by
  show ((InitGame gZero r0C).1).player = _
  norm_num [InitGame, SCREEN_WIDTH, SCREEN_HEIGHT]

lemma clampAxis_bounds (v r dim : ℚ) (h : 2 * r ≤ dim) :
    r ≤ clampAxis v r dim ∧ clampAxis v r dim ≤ dim - r := by
  simp only [clampAxis]
  split_ifs <;> constructor <;> linarith

lemma frame_player_radius (sq : ℚ → ℚ) (g : GameState) (inp : Input) (r : List ℤ)
    (h : g.player.radius = 20) : ((frame sq g inp r).1).player.radius = 20 := by
  unfold frame
  by_cases hgo : g.gameOver = false
  · by_cases hf : inp.firePressed
    · simp only [if_pos hgo, hf, ite_true]
      exact h
    · simp only [if_pos hgo, hf, ite_false]
      exact h
  · by_cases hr : inp.restartPressed
    · simp only [if_neg hgo, if_pos hr]
      rfl
    · simp only [if_neg hgo, if_neg hr]
      exact h

lemma reachable_radius {sq : ℚ → ℚ} {g : GameState} (h : Reachable sq g) :
    g.player.radius = 20 := by
  induction h with
  | init g0 r hwf => rfl
  | step g inp r hg ih => exact frame_player_radius sq g inp r ih

lemma reachable_gZero : Reachable ratSqrt gInit :=
  Reachable.init gZero r0C
    ⟨by simp [gZero, MAX_BULLETS], by simp [gZero, MAX_ENEMIES]⟩

/-- C3: the player's radius is 20 in every reachable state, and for every
state whose player radius fits the field (in particular every reachable
one), every key set and every `deltaTime ≥ 0`, `UpdatePlayer` leaves the
player position hard-clamped to
`[radius, 800 - radius] × [radius, 600 - radius]`. -/
theorem C3_player_position_clamped :
    (∀ sq g, Reachable sq g → g.player.radius = 20) ∧
    (∀ g k dt, 0 ≤ dt → 2 * g.player.radius ≤ (SCREEN_HEIGHT : ℚ) →
      (UpdatePlayer g k dt).player.radius ≤ (UpdatePlayer g k dt).player.position.x ∧
      (UpdatePlayer g k dt).player.position.x ≤
        (SCREEN_WIDTH : ℚ) - (UpdatePlayer g k dt).player.radius ∧
      (UpdatePlayer g k dt).player.radius ≤ (UpdatePlayer g k dt).player.position.y ∧
      (UpdatePlayer g k dt).player.position.y ≤
        (SCREEN_HEIGHT : ℚ) - (UpdatePlayer g k dt).player.radius) := by
  constructor
  · exact fun sq g h => reachable_radius h
  · intro g k dt _ hr
    have hrx : 2 * g.player.radius ≤ (SCREEN_WIDTH : ℚ) := by
      have : (SCREEN_HEIGHT : ℚ) ≤ (SCREEN_WIDTH : ℚ) := by norm_num [SCREEN_WIDTH, SCREEN_HEIGHT]
      linarith
    have hx := clampAxis_bounds
      (g.player.position.x + (moveVec k).x * PLAYER_SPEED * dt) g.player.radius
      (SCREEN_WIDTH : ℚ) hrx
    have hy := clampAxis_bounds
      (g.player.position.y + (moveVec k).y * PLAYER_SPEED * dt) g.player.radius
      (SCREEN_HEIGHT : ℚ) hr
    exact ⟨hx.1, hx.2, hy.1, hy.2⟩

/-- Witness for C3 at the concrete reachable state `gInit`, keys released,
`deltaTime = 0`. -/
theorem C3_witness :
    gInit.player.radius = 20 ∧
    ((UpdatePlayer gInit k0 0).player.radius ≤
        (UpdatePlayer gInit k0 0).player.position.x ∧
      (UpdatePlayer gInit k0 0).player.position.x ≤
        (SCREEN_WIDTH : ℚ) - (UpdatePlayer gInit k0 0).player.radius ∧
      (UpdatePlayer gInit k0 0).player.radius ≤
        (UpdatePlayer gInit k0 0).player.position.y ∧
      (UpdatePlayer gInit k0 0).player.position.y ≤
        (SCREEN_HEIGHT : ℚ) - (UpdatePlayer gInit k0 0).player.radius) :=
  ⟨C3_player_position_clamped.1 ratSqrt gInit reachable_gZero,
    C3_player_position_clamped.2 gInit k0 0 (by norm_num)
      (by show (2 : ℚ) * 20 ≤ ((600 : ℤ) : ℚ); norm_num)⟩

/-- Witness for C2 at the concrete reachable state `gInit`. -/
theorem C2_witness :
    gInit.enemies.length = MAX_ENEMIES ∧ ∀ e ∈ gInit.enemies, e.active = true :=
  C2_enemies_always_ten_and_active.1 ratSqrt gInit reachable_gZero

/-- C9: once the game-over flag is set, a main-loop iteration leaves the
state untouched unless restart is pressed, in which case the state is
exactly re-initialized by `InitGame` (game-over false, score 0). -/
theorem C9_gameover_terminal (sq : ℚ → ℚ) (g : GameState) (inp : Input) (r : List ℤ)
    (h : g.gameOver = true) :
    frame sq g inp r = (if inp.restartPressed then InitGame g r else (g, r)) ∧
    ((InitGame g r).1).gameOver = false ∧ ((InitGame g r).1).score = 0 := by
  refine ⟨?_, rfl, rfl⟩
  unfold frame
  rw [h]
  simp

/-- A concrete state with the game-over flag set. -/
def gOverW : GameState := { gInit with gameOver := true }

/-- A concrete idle input: no keys, no fire, no restart, `deltaTime = 0`. -/
def inpIdle : Input := ⟨k0, 0, ⟨0, 0⟩, false, false⟩

/-- Witness for C9 at the concrete game-over state `gOverW`. -/
theorem C9_witness :
    frame ratSqrt gOverW inpIdle [] =
      (if inpIdle.restartPressed then InitGame gOverW [] else (gOverW, [])) ∧
    ((InitGame gOverW []).1).gameOver = false ∧ ((InitGame gOverW []).1).score = 0 :=
  C9_gameover_terminal ratSqrt gOverW inpIdle [] rfl

/-! ## FireBullet slot allocation (C4) -/

lemma fireScan_all_active (pos vel : Vec2) (bs : List GameObject)
    (h : ∀ b ∈ bs, b.active = true) : fireScan pos vel bs = bs := by
  induction bs with
  | nil => rfl
  | cons b bs ih =>
    have hb : b.active = true := h b (List.mem_cons_self _ _)
    simp only [fireScan, hb, ite_true]
    rw [ih (fun x hx => h x (List.mem_cons_of_mem _ hx))]

lemma fireScan_first_inactive (pos vel : Vec2) (bs : List GameObject) (i : ℕ)
    (hi : i < bs.length) (hin : (bs.get ⟨i, hi⟩).active = false)
    (hbefore : ∀ j, ∀ hj : j < bs.length, j < i → (bs.get ⟨j, hj⟩).active = true) :
    fireScan pos vel bs = bs.set i
      { bs.get ⟨i, hi⟩ with position := pos, velocity := vel, active := true } := by
  induction bs generalizing i with
  | nil => simp at hi
  | cons b bs ih =>
    cases i with
    | zero =>
      have hb : b.active = false := hin
      simp only [fireScan, hb]
      rfl
    | succ i =>
      have hb : b.active = true := hbefore 0 (Nat.succ_pos _) (Nat.succ_pos i)
      simp only [fireScan, hb, ite_true]
      have hi' : i < bs.length := Nat.lt_of_succ_lt_succ hi
      have hin' : (bs.get ⟨i, hi'⟩).active = false := hin
      have hbefore' : ∀ j, ∀ hj : j < bs.length, j < i → (bs.get ⟨j, hj⟩).active = true :=
        fun j hj hji => hbefore (j + 1) (Nat.succ_lt_succ hj) (Nat.succ_lt_succ hji)
      rw [ih i hi' hin' hbefore']
      rfl

/-- C4: with all 20 bullet slots active, `FireBullet` is a no-op on the
whole game state (silently dropped, no error); otherwise exactly the
lowest-index inactive slot is activated at the player's position with
velocity `fireDir × 400`, all other slots and all other state unchanged. -/
theorem C4_fire_full_pool_noop (sq : ℚ → ℚ) (g : GameState) (m : Vec2) :
    ((∀ b ∈ g.bullets, b.active = true) → FireBullet sq g m = g) ∧
    (∀ i, ∀ hi : i < g.bullets.length,
      (g.bullets.get ⟨i, hi⟩).active = false →
      (∀ j, ∀ hj : j < g.bullets.length, j < i → (g.bullets.get ⟨j, hj⟩).active = true) →
      (FireBullet sq g m).player = g.player ∧
      (FireBullet sq g m).enemies = g.enemies ∧
      (FireBullet sq g m).score = g.score ∧
      (FireBullet sq g m).gameOver = g.gameOver ∧
      (FireBullet sq g m).bullets = g.bullets.set i
        { g.bullets.get ⟨i, hi⟩ with
            position := g.player.position,
            velocity := ⟨(fireDir sq g.player.position m).x * BULLET_SPEED,
                         (fireDir sq g.player.position m).y * BULLET_SPEED⟩,
            active := true }) := by
  constructor
  · intro h
    show ({ g with bullets := fireScan g.player.position _ g.bullets } : GameState) = g
    rw [fireScan_all_active _ _ _ h]
  · intro i hi hin hbefore
    exact ⟨rfl, rfl, rfl, rfl, fireScan_first_inactive _ _ g.bullets i hi hin hbefore⟩

/-- A concrete active bullet. -/
def bAct : GameObject := ⟨⟨400, 300⟩, ⟨0, 0⟩, 5, true, YELLOW⟩

/-- A concrete state whose bullet pool is entirely active. -/
def gFull : GameState := { gInit with bullets := List.replicate MAX_BULLETS bAct }

/-- Witness for C4: firing into a full pool at `gFull` changes nothing;
firing at `gInit` (all slots free, slot 0 is the lowest) keeps the score. -/
theorem C4_witness :
    FireBullet ratSqrt gFull ⟨500, 300⟩ = gFull ∧
    (FireBullet ratSqrt gInit ⟨500, 300⟩).score = gInit.score :=
  ⟨(C4_fire_full_pool_noop ratSqrt gFull ⟨500, 300⟩).1
      (fun b hb => by
        have hb' : b ∈ List.replicate MAX_BULLETS bAct := by simpa [gFull] using hb
        rw [List.eq_of_mem_replicate hb']
        rfl),
    ((C4_fire_full_pool_noop ratSqrt gInit ⟨500, 300⟩).2 0
      (by norm_num [gInit, InitGame, gZero, MAX_BULLETS])
      rfl (fun j hj hj0 => absurd hj0 (Nat.not_lt_zero j))).2.2.1⟩

/-! ## Zero-velocity bullets (C5) -/

lemma fireDir_self (sq : ℚ → ℚ) (p : Vec2) : fireDir sq p p = ⟨0, 0⟩ := by
  unfold fireDir
  simp

lemma updateBullet_stationary (dt : ℚ) (b : GameObject) (ha : b.active = true)
    (hv : b.velocity = ⟨0, 0⟩) (h1 : 0 ≤ b.position.x)
    (h2 : b.position.x ≤ (SCREEN_WIDTH : ℚ)) (h3 : 0 ≤ b.position.y)
    (h4 : b.position.y ≤ (SCREEN_HEIGHT : ℚ)) :
    updateBullet dt b = b := by
  have hvx : b.velocity.x = 0 := by rw [hv]
  have hvy : b.velocity.y = 0 := by rw [hv]
  unfold updateBullet
  rw [if_pos ha]
  simp only [hvx, hvy, zero_mul, add_zero]
  rw [if_neg]
  push_neg
  exact ⟨h1, h2, h3, h4⟩

lemma UpdateBullets_get? (g : GameState) (dt : ℚ) (i : ℕ) :
    (UpdateBullets g dt).bullets.get? i = (g.bullets.get? i).map (updateBullet dt) := by
  simp [UpdateBullets]

/-- C5: firing with the aim point equal to the player position produces
direction exactly `(0,0)` (no normalization of the zero vector), the
spawned bullet carries velocity `(0,0)`, and an active zero-velocity
bullet whose position lies inside `[0,800] × [0,600]` survives any
sequence of `UpdateBullets` calls unchanged (the boundary check never
deactivates it). -/
theorem C5_zero_aim_bullet_immortal (sq : ℚ → ℚ) (g : GameState) (m : Vec2)
    (hm : m = g.player.position) :
    fireDir sq g.player.position m = ⟨0, 0⟩ ∧
    (FireBullet sq g m).bullets = fireScan g.player.position ⟨0, 0⟩ g.bullets ∧
    (∀ dt b, b.active = true → b.velocity = ⟨0, 0⟩ →
      0 ≤ b.position.x → b.position.x ≤ (SCREEN_WIDTH : ℚ) →
      0 ≤ b.position.y → b.position.y ≤ (SCREEN_HEIGHT : ℚ) →
      updateBullet dt b = b) ∧
    (∀ i b, g.bullets.get? i = some b → b.active = true → b.velocity = ⟨0, 0⟩ →
      0 ≤ b.position.x → b.position.x ≤ (SCREEN_WIDTH : ℚ) →
      0 ≤ b.position.y → b.position.y ≤ (SCREEN_HEIGHT : ℚ) →
      ∀ dts : List ℚ,
        (dts.foldl (fun s dt => UpdateBullets s dt) g).bullets.get? i = some b) := by
  subst hm
  refine ⟨fireDir_self sq _, ?_, fun dt b => updateBullet_stationary dt b, ?_⟩
  · show fireScan g.player.position
      ⟨(fireDir sq g.player.position g.player.position).x * BULLET_SPEED,
       (fireDir sq g.player.position g.player.position).y * BULLET_SPEED⟩ g.bullets = _
    rw [fireDir_self sq]
    norm_num
  · intro i b hb ha hv h1 h2 h3 h4 dts
    induction dts generalizing g with
    | nil => exact hb
    | cons dt dts ih =>
      show (dts.foldl (fun s dt => UpdateBullets s dt) (UpdateBullets g dt)).bullets.get? i =
        some b
      apply ih
      rw [UpdateBullets_get?, hb]
      simp [updateBullet_stationary dt b ha hv h1 h2 h3 h4]

/-- The concrete zero-velocity bullet of the C5 witness. -/
def bulletW : GameObject := ⟨⟨400, 300⟩, ⟨0, 0⟩, 5, true, YELLOW⟩

/-- A concrete state holding `bulletW` in slot 0. -/
def gB : GameState := { gInit with bullets := [bulletW] }

/-- Witness for C5: at `gB`, aiming at the player position yields the zero
direction, and the stationary bullet in slot 0 survives the update
sequence `[1, 2]` unchanged. -/
theorem C5_witness :
    fireDir ratSqrt gB.player.position gB.player.position = ⟨0, 0⟩ ∧
    (([1, 2] : List ℚ).foldl (fun s dt => UpdateBullets s dt) gB).bullets.get? 0 =
      some bulletW :=
  ⟨(C5_zero_aim_bullet_immortal ratSqrt gB gB.player.position rfl).1,
    (C5_zero_aim_bullet_immortal ratSqrt gB gB.player.position rfl).2.2.2 0 bulletW
      rfl rfl rfl
      (by show (0 : ℚ) ≤ 400; norm_num)
      (by show (400 : ℚ) ≤ ((800 : ℤ) : ℚ); norm_num)
      (by show (0 : ℚ) ≤ 300; norm_num)
      (by show (300 : ℚ) ≤ ((600 : ℤ) : ℚ); norm_num)
      [1, 2]⟩

/-! ## Respawn edge bands (C6) -/

/-- The four off-field edge bands an enemy can respawn into: 50 units
beyond one edge, the perpendicular coordinate within the field extent. -/
def inBand (p : Vec2) : Prop :=
  (p.y = -50 ∧ 0 ≤ p.x ∧ p.x ≤ (SCREEN_WIDTH : ℚ)) ∨
  (p.x = (SCREEN_WIDTH : ℚ) + 50 ∧ 0 ≤ p.y ∧ p.y ≤ (SCREEN_HEIGHT : ℚ)) ∨
  (p.y = (SCREEN_HEIGHT : ℚ) + 50 ∧ 0 ≤ p.x ∧ p.x ≤ (SCREEN_WIDTH : ℚ)) ∨
  (p.x = -50 ∧ 0 ≤ p.y ∧ p.y ≤ (SCREEN_HEIGHT : ℚ))

lemma getRandomValue_bounds (r : List ℤ) (lo hi : ℤ) (h : lo ≤ hi) :
    lo ≤ (getRandomValue r lo hi).1 ∧ (getRandomValue r lo hi).1 ≤ hi := by
  cases r with
  | nil => exact ⟨le_refl lo, h⟩
  | cons v rest => exact ⟨le_max_left _ _, max_le h (min_le_left _ _)⟩

lemma respawnPos_inBand (r : List ℤ) : inBand (respawnPos r).1 := by
  unfold respawnPos inBand
  by_cases h0 : (getRandomValue r 0 3).1 = 0
  · have hx := getRandomValue_bounds (getRandomValue r 0 3).2 0 SCREEN_WIDTH
      (by norm_num [SCREEN_WIDTH])
    simp only [if_pos h0]
    exact Or.inl ⟨trivial, by exact_mod_cast hx.1, by exact_mod_cast hx.2⟩
  · by_cases h1 : (getRandomValue r 0 3).1 = 1
    · have hy := getRandomValue_bounds (getRandomValue r 0 3).2 0 SCREEN_HEIGHT
        (by norm_num [SCREEN_HEIGHT])
      simp only [if_neg h0, if_pos h1]
      exact Or.inr (Or.inl ⟨trivial, by exact_mod_cast hy.1, by exact_mod_cast hy.2⟩)
    · by_cases h2 : (getRandomValue r 0 3).1 = 2
      · have hx := getRandomValue_bounds (getRandomValue r 0 3).2 0 SCREEN_WIDTH
          (by norm_num [SCREEN_WIDTH])
        simp only [if_neg h0, if_neg h1, if_pos h2]
        exact Or.inr (Or.inr (Or.inl ⟨trivial, by exact_mod_cast hx.1, by exact_mod_cast hx.2⟩))
      · have hy := getRandomValue_bounds (getRandomValue r 0 3).2 0 SCREEN_HEIGHT
          (by norm_num [SCREEN_HEIGHT])
        simp only [if_neg h0, if_neg h1, if_neg h2]
        exact Or.inr (Or.inr (Or.inr ⟨trivial, by exact_mod_cast hy.1, by exact_mod_cast hy.2⟩))

/-- An enemy slot, across one pass: either untouched, or relocated into an
edge band and left active. -/
def RespawnedOrSame (e e' : GameObject) : Prop :=
  e' = e ∨ (inBand e'.position ∧ e'.active = true)

lemma respawnedOrSame_trans {a b c : GameObject}
    (h1 : RespawnedOrSame a b) (h2 : RespawnedOrSame b c) : RespawnedOrSame a c := by
  rcases h2 with rfl | h2
  · exact h1
  · exact Or.inr h2

lemma forall₂_respawned_trans : ∀ {l1 l2 l3 : List GameObject},
    List.Forall₂ RespawnedOrSame l1 l2 → List.Forall₂ RespawnedOrSame l2 l3 →
    List.Forall₂ RespawnedOrSame l1 l3 := by
  intro l1 l2 l3 h1
  induction h1 generalizing l3 with
  | nil => intro h2; cases h2; exact List.Forall₂.nil
  | cons hab h ih =>
    intro h2
    cases h2 with
    | cons hbc h2' => exact List.Forall₂.cons (respawnedOrSame_trans hab hbc) (ih h2')

lemma bulletHitsEnemies_respawned (b : GameObject) (es : List GameObject) (s : ℤ)
    (r : List ℤ) :
    List.Forall₂ RespawnedOrSame es (bulletHitsEnemies b es s r).enemies := by
  induction es generalizing s r with
  | nil => simp [bulletHitsEnemies]
  | cons e es ih =>
    by_cases hc : e.active = true ∧
        distLt (dist2 b.position e.position) (b.radius + e.radius) = true
    · simp only [bulletHitsEnemies, if_pos hc]
      exact List.Forall₂.cons (Or.inr ⟨respawnPos_inBand r, rfl⟩) (ih _ _)
    · simp only [bulletHitsEnemies, if_neg hc]
      exact List.Forall₂.cons (Or.inl rfl) (ih _ _)

lemma bulletEnemyPass_respawned (bs es : List GameObject) (s : ℤ) (r : List ℤ) :
    List.Forall₂ RespawnedOrSame es (bulletEnemyPass bs es s r).enemies := by
  induction bs generalizing es s r with
  | nil =>
    simp only [bulletEnemyPass]
    exact (List.forall₂_same).2 (fun e _ => Or.inl rfl)
  | cons b bs ih =>
    by_cases hb : b.active = true
    · simp only [bulletEnemyPass, if_pos hb]
      exact forall₂_respawned_trans (bulletHitsEnemies_respawned b es s r) (ih _ _ _)
    · simp only [bulletEnemyPass, if_neg hb]
      exact ih es s r

/-- C6: every respawn position lies in one of the four edge bands
(`y = -50` with `x ∈ [0,800]`, `x = 850` with `y ∈ [0,600]`, `y = 650`
with `x ∈ [0,800]`, `x = -50` with `y ∈ [0,600]`), and across a whole
`CheckCollisions` call every enemy slot is either untouched or has been
relocated into such a band with its active flag true on return. -/
theorem C6_respawn_edge_bands :
    (∀ r, inBand (respawnPos r).1) ∧
    (∀ g r, List.Forall₂ RespawnedOrSame g.enemies ((CheckCollisions g r).1).enemies) :=
  ⟨respawnPos_inBand,
    fun g r => bulletEnemyPass_respawned g.bullets g.enemies g.score r⟩

/-! ## Respawned enemies cannot cause game over in the same call (C10) -/

/-- The clamped player box `[20, 780] × [20, 580]` (radius 20). -/
def inClampBox (p : Vec2) : Prop :=
  20 ≤ p.x ∧ p.x ≤ (SCREEN_WIDTH : ℚ) - 20 ∧ 20 ≤ p.y ∧ p.y ≤ (SCREEN_HEIGHT : ℚ) - 20

lemma distLt_eq_false (d2 rsum : ℚ) (h : rsum * rsum ≤ d2) : distLt d2 rsum = false := by
  unfold distLt
  rw [decide_eq_false (not_lt.2 h)]
  simp

/-- C10: from any player position inside the clamped box, the squared
distance to any edge-band point is at least 70² = 4900, which exceeds
(20 + 15)² = 1225; hence the player-enemy check over a just-respawned
enemy leaves the game-over flag exactly as it was. -/
theorem C10_respawned_enemy_cannot_end_game (player e : GameObject) (go : Bool)
    (hp : inClampBox player.position) (he : inBand e.position)
    (hr : player.radius = 20) (her : e.radius = 15) :
    4900 ≤ dist2 player.position e.position ∧
    playerEnemyStep player go e = go := by
  have hsw : (SCREEN_WIDTH : ℚ) = 800 := by norm_num [SCREEN_WIDTH]
  have hsh : (SCREEN_HEIGHT : ℚ) = 600 := by norm_num [SCREEN_HEIGHT]
  unfold inClampBox at hp
  unfold inBand at he
  rw [hsw, hsh] at hp he
  obtain ⟨hp1, hp2, hp3, hp4⟩ := hp
  have hd : 4900 ≤ dist2 player.position e.position := by
    unfold dist2
    rcases he with ⟨hy, hx1, hx2⟩ | ⟨hx, hy1, hy2⟩ | ⟨hy, hx1, hx2⟩ | ⟨hx, hy1, hy2⟩
    · rw [hy]
      nlinarith [mul_self_nonneg (player.position.x - e.position.x), hp3]
    · rw [hx]
      nlinarith [mul_self_nonneg (player.position.y - e.position.y), hp2]
    · rw [hy]
      nlinarith [mul_self_nonneg (player.position.x - e.position.x), hp4]
    · rw [hx]
      nlinarith [mul_self_nonneg (player.position.y - e.position.y), hp1]
  refine ⟨hd, ?_⟩
  have hno : ¬(e.active = true ∧
      distLt (dist2 player.position e.position) (player.radius + e.radius) = true) := by
    rintro ⟨-, hdl⟩
    rw [hr, her] at hdl
    rw [distLt_eq_false _ _ (by nlinarith)] at hdl
    exact Bool.false_ne_true hdl
  unfold playerEnemyStep
  rw [if_neg hno]

/-- A concrete respawned enemy in the top band. -/
def eBand : GameObject := ⟨⟨100, -50⟩, ⟨0, 0⟩, 15, true, RED⟩

/-- Witness for C10 at the concrete player of `gInit` (at the field
center) and the band enemy `eBand`. -/
theorem C10_witness :
    4900 ≤ dist2 gInit.player.position eBand.position ∧
    playerEnemyStep gInit.player false eBand = false :=
  C10_respawned_enemy_cannot_end_game gInit.player eBand false
    (by rw [gInit_player]; unfold inClampBox
        norm_num [SCREEN_WIDTH, SCREEN_HEIGHT])
    (by unfold inBand eBand
        norm_num [SCREEN_WIDTH])
    (by rw [gInit_player]) rfl

/-! ## Diagonal scaling constant (C8) -/

/-- Down and right held together. -/
def kDR : Keys := ⟨false, true, false, true⟩

/-- Counterexample to C8 as stated: with both axes engaged and
`deltaTime = 1`, the player's x-coordinate moves by `0.707 × 200`, not by
`0.70710678 × 200` — the code's scaling constant is the float literal
`0.707f`, not `0.70710678`. -/
theorem C8_counterexample :
    (UpdatePlayer gInit kDR 1).player.position.x = 400 + 0.707 * 200 ∧
    (UpdatePlayer gInit kDR 1).player.position.x ≠ 400 + 0.70710678 * 200 := by
  have hx : (UpdatePlayer gInit kDR 1).player.position.x = 541.4 := by
    simp only [UpdatePlayer]
    rw [gInit_player]
    norm_num [moveVec, moveAxis, kDR, clampAxis, PLAYER_SPEED, SCREEN_WIDTH]
  rw [hx]
  norm_num

/-- C8 amended: when both axes of the accumulated movement vector are
nonzero, each component is scaled by the constant 0.707 (the code's
`0.707f`), then multiplied by the speed constant 200 and the elapsed
time before the per-axis clamp. -/
theorem C8_amended_diagonal_scale_0707 (g : GameState) (k : Keys) (dt : ℚ)
    (hx : moveAxis k.left k.right ≠ 0) (hy : moveAxis k.up k.down ≠ 0) :
    moveVec k = ⟨moveAxis k.left k.right * 0.707, moveAxis k.up k.down * 0.707⟩ ∧
    (UpdatePlayer g k dt).player.position.x =
      clampAxis (g.player.position.x + moveAxis k.left k.right * 0.707 * PLAYER_SPEED * dt)
        g.player.radius (SCREEN_WIDTH : ℚ) ∧
    (UpdatePlayer g k dt).player.position.y =
      clampAxis (g.player.position.y + moveAxis k.up k.down * 0.707 * PLAYER_SPEED * dt)
        g.player.radius (SCREEN_HEIGHT : ℚ) := by
  have hm : moveVec k = ⟨moveAxis k.left k.right * 0.707, moveAxis k.up k.down * 0.707⟩ := by
    unfold moveVec
    rw [if_pos ⟨hx, hy⟩]
  refine ⟨hm, ?_, ?_⟩ <;> simp only [UpdatePlayer, hm]

/-- Witness for C8's amended claim at the concrete input `kDR`. -/
theorem C8_witness :
    moveVec kDR = ⟨moveAxis kDR.left kDR.right * 0.707, moveAxis kDR.up kDR.down * 0.707⟩ :=
  (C8_amended_diagonal_scale_0707 gInit kDR 1
    (by norm_num [moveAxis, kDR]) (by norm_num [moveAxis, kDR])).1

/-! ## The bullet-enemy pass does not short-circuit (C1) -/

/-- C1 amended: deactivating a bullet on a hit does not stop the inner
enemy loop (the C code has no `break`, and the hit test never re-reads
the bullet's active flag): every active enemy within collision range of
the bullet is consumed — relocated to an edge band, active on return —
even when an earlier enemy in the same pass already consumed the bullet,
and the pass awards exactly 10 points per such hit (up to 10 enemies and
100 points per bullet per call). -/
theorem C1_bullet_hits_every_enemy_in_range (b : GameObject) (es : List GameObject)
    (s : ℤ) (r : List ℤ) (i : ℕ) (hi : i < es.length)
    (ha : (es.get ⟨i, hi⟩).active = true)
    (hd : distLt (dist2 b.position (es.get ⟨i, hi⟩).position)
        (b.radius + (es.get ⟨i, hi⟩).radius) = true) :
    (∃ n : ℕ, n ≤ es.length ∧ (bulletHitsEnemies b es s r).score = s + 10 * n) ∧
    (∃ e', (bulletHitsEnemies b es s r).enemies.get? i = some e' ∧
      inBand e'.position ∧ e'.active = true) := by
  refine ⟨bulletHitsEnemies_score b es s r, ?_⟩
  induction es generalizing i s r with
  | nil => exact absurd hi (Nat.not_lt_zero i)
  | cons e es ih =>
    cases i with
    | zero =>
      have hc : e.active = true ∧
          distLt (dist2 b.position e.position) (b.radius + e.radius) = true := ⟨ha, hd⟩
      simp only [bulletHitsEnemies, if_pos hc]
      exact ⟨_, rfl, respawnPos_inBand r, rfl⟩
    | succ i =>
      have hi' : i < es.length := Nat.lt_of_succ_lt_succ hi
      have ha' : (es.get ⟨i, hi'⟩).active = true := ha
      have hd' : distLt (dist2 b.position (es.get ⟨i, hi'⟩).position)
          (b.radius + (es.get ⟨i, hi'⟩).radius) = true := hd
      by_cases hc : e.active = true ∧
          distLt (dist2 b.position e.position) (b.radius + e.radius) = true
      · simp only [bulletHitsEnemies, if_pos hc]
        exact ih (s + 10) (respawnPos r).2 i hi' ha' hd'
      · simp only [bulletHitsEnemies, if_neg hc]
        exact ih s r i hi' ha' hd'

/-- A far-away enemy (at the origin) for the C1 witness. -/
def eFar : GameObject := ⟨⟨0, 0⟩, ⟨0, 0⟩, 15, true, RED⟩

/-- An enemy in collision range of `bAct` for the C1 witness. -/
def eNear : GameObject := ⟨⟨403, 300⟩, ⟨0, 0⟩, 15, true, RED⟩

/-- Witness for C1's amended claim: the active in-range enemy at index 1
is consumed. -/
theorem C1_amended_witness :
    ∃ e', (bulletHitsEnemies bAct [eFar, eNear] 0 []).enemies.get? 1 = some e' ∧
      inBand e'.position ∧ e'.active = true :=
  (C1_bullet_hits_every_enemy_in_range bAct [eFar, eNear] 0 [] 1 (by norm_num) rfl
    (by simp only [distLt, dist2, Bool.and_eq_true, decide_eq_true_eq]
        constructor <;> norm_num [bAct, eNear])).2

/-! ## Concrete double-kill trace (C1 counterexample) -/

/-- A bullet slot right after `InitGame` from the all-zero state. -/
def fb0 : GameObject := ⟨⟨0, 0⟩, ⟨0, 0⟩, 5, false, YELLOW⟩

/-- An enemy initialized at the field center (on the player). -/
def eC : GameObject := ⟨⟨400, 300⟩, ⟨0, 0⟩, 15, true, RED⟩

/-- An enemy initialized at the origin. -/
def eZ : GameObject := ⟨⟨0, 0⟩, ⟨0, 0⟩, 15, true, RED⟩

/-- Enemy respawned to the top band at x = 100. -/
def eR1 : GameObject := ⟨⟨100, -50⟩, ⟨0, 0⟩, 15, true, RED⟩

/-- Enemy respawned to the top band at x = 200. -/
def eR2 : GameObject := ⟨⟨200, -50⟩, ⟨0, 0⟩, 15, true, RED⟩

/-- The frame input of the counterexample: no movement, `deltaTime = 0`,
mouse on the player, fire pressed. -/
def inpC : Input := ⟨k0, 0, ⟨400, 300⟩, true, false⟩

/-- The random draws consumed by the two respawns of the counterexample
frame: edge 0 / x = 100, then edge 0 / x = 200. -/
def rC : List ℤ := [0, 100, 0, 200]

/-- The counterexample frame's state just before `CheckCollisions` is
called (the argument the main loop passes to it). -/
def preC : GameState :=
  UpdateEnemies ratSqrt
    (UpdateBullets (FireBullet ratSqrt (UpdatePlayer gInit k0 0) ⟨400, 300⟩) 0) 0

lemma initEnemies_nil (n : ℕ) : initEnemies n [] = (List.replicate n eZ, []) := by
  induction n with
  | zero => rfl
  | succ n ih =>
    simp only [initEnemies, getRandomValue, ih, List.replicate_succ]
    norm_num [eZ]

lemma initEnemies_succ (n : ℕ) (r : List ℤ) :
    initEnemies (n + 1) r =
      (⟨⟨((getRandomValue r 0 SCREEN_WIDTH).1 : ℚ),
          ((getRandomValue (getRandomValue r 0 SCREEN_WIDTH).2 0 SCREEN_HEIGHT).1 : ℚ)⟩,
        ⟨0, 0⟩, 15, true, RED⟩ ::
          (initEnemies n
            (getRandomValue (getRandomValue r 0 SCREEN_WIDTH).2 0 SCREEN_HEIGHT).2).1,
       (initEnemies n
          (getRandomValue (getRandomValue r 0 SCREEN_WIDTH).2 0 SCREEN_HEIGHT).2).2) := rfl

lemma gInit_enemies : gInit.enemies = eC :: eC :: List.replicate 8 eZ := by
  have h9 : initEnemies 9 ([400, 300] : List ℤ) = (eC :: List.replicate 8 eZ, []) := by
    rw [show (9 : ℕ) = 8 + 1 from rfl, initEnemies_succ]
    simp only [getRandomValue, initEnemies_nil 8]
    norm_num [eC, SCREEN_WIDTH, SCREEN_HEIGHT, min_def, max_def]
  have h10 : initEnemies 10 r0C = (eC :: eC :: List.replicate 8 eZ, []) := by
    rw [show (10 : ℕ) = 9 + 1 from rfl, initEnemies_succ]
    simp only [getRandomValue, r0C, h9]
    norm_num [eC, SCREEN_WIDTH, SCREEN_HEIGHT, min_def, max_def]
  show (initEnemies MAX_ENEMIES r0C).1 = _
  rw [show MAX_ENEMIES = 10 from rfl, h10]

lemma gInit_bullets : gInit.bullets = List.replicate 20 fb0 := by
  show (List.replicate MAX_BULLETS bZero).map
    (fun b => ({ b with radius := 5, active := false, color := YELLOW } : GameObject)) =
      List.replicate 20 fb0
  rw [List.map_replicate]
  rfl

lemma updatePlayer_gInit_position : (UpdatePlayer gInit k0 0).player.position = ⟨400, 300⟩ := by
  simp only [UpdatePlayer]
  rw [gInit_player]
  norm_num [moveVec, moveAxis, k0, clampAxis, PLAYER_SPEED, SCREEN_WIDTH, SCREEN_HEIGHT]

lemma preC_score : preC.score = 0 := rfl

lemma preC_player_position : preC.player.position = ⟨400, 300⟩ :=
  updatePlayer_gInit_position

lemma preC_enemies : preC.enemies = eC :: eC :: List.replicate 8 eZ := by
  show gInit.enemies.map
    (updateEnemy ratSqrt (UpdatePlayer gInit k0 0).player.position 0) = _
  rw [updatePlayer_gInit_position, gInit_enemies]
  have hC : updateEnemy ratSqrt ⟨400, 300⟩ 0 eC = eC := by
    simp only [updateEnemy, eC]
    norm_num [ratSqrt, Nat.sqrt]
  have hZ : updateEnemy ratSqrt ⟨400, 300⟩ 0 eZ = eZ := by
    simp only [updateEnemy, eZ]
    norm_num [ratSqrt, Nat.sqrt]
  simp [hC, hZ, List.map_replicate]

lemma preC_bullets : preC.bullets = bAct :: List.replicate 19 fb0 := by
  show ((fireScan (UpdatePlayer gInit k0 0).player.position
      ⟨(fireDir ratSqrt (UpdatePlayer gInit k0 0).player.position ⟨400, 300⟩).x * BULLET_SPEED,
       (fireDir ratSqrt (UpdatePlayer gInit k0 0).player.position ⟨400, 300⟩).y * BULLET_SPEED⟩
      gInit.bullets).map (updateBullet 0)) = _
  rw [updatePlayer_gInit_position, fireDir_self, gInit_bullets,
    show (20 : ℕ) = 19 + 1 from rfl, List.replicate_succ]
  have hscan : fireScan ⟨400, 300⟩ ⟨(0 : ℚ) * BULLET_SPEED, (0 : ℚ) * BULLET_SPEED⟩
      (fb0 :: List.replicate 19 fb0) = bAct :: List.replicate 19 fb0 := by
    simp only [fireScan, fb0]
    norm_num [bAct, BULLET_SPEED]
  rw [hscan]
  have hA : updateBullet 0 bAct = bAct := by
    simp only [updateBullet, bAct]
    norm_num [SCREEN_WIDTH, SCREEN_HEIGHT]
  have h0 : updateBullet 0 fb0 = fb0 := by
    simp only [updateBullet, fb0]
    norm_num
  simp [hA, h0, List.map_replicate]

lemma preC_gameOver : preC.gameOver = false := rfl

lemma bulletHitsEnemies_replicate_miss (b e : GameObject) (n : ℕ) (s : ℤ) (r : List ℤ)
    (h : ¬(e.active = true ∧
      distLt (dist2 b.position e.position) (b.radius + e.radius) = true)) :
    bulletHitsEnemies b (List.replicate n e) s r = ⟨List.replicate n e, s, r, false⟩ := by
  induction n with
  | zero => rfl
  | succ n ih =>
    rw [List.replicate_succ]
    simp only [bulletHitsEnemies, if_neg h, ih]

lemma bulletEnemyPass_replicate_inactive (b : GameObject) (n : ℕ) (es : List GameObject)
    (s : ℤ) (r : List ℤ) (h : b.active = false) :
    bulletEnemyPass (List.replicate n b) es s r = ⟨List.replicate n b, es, s, r⟩ := by
  have hb : ¬(b.active = true) := by simp [h]
  induction n with
  | zero => rfl
  | succ n ih =>
    rw [List.replicate_succ]
    simp only [bulletEnemyPass, if_neg hb, ih]

lemma respawnPos_rC : respawnPos rC = (⟨100, -50⟩, [0, 200]) := by
  norm_num [respawnPos, getRandomValue, rC, SCREEN_WIDTH, SCREEN_HEIGHT, min_def, max_def]

lemma respawnPos_rC2 : respawnPos ([0, 200] : List ℤ) = (⟨200, -50⟩, []) := by
  norm_num [respawnPos, getRandomValue, SCREEN_WIDTH, SCREEN_HEIGHT, min_def, max_def]

lemma hit_eC : eC.active = true ∧
    distLt (dist2 bAct.position eC.position) (bAct.radius + eC.radius) = true := by
  refine ⟨rfl, ?_⟩
  simp only [distLt, dist2, Bool.and_eq_true, decide_eq_true_eq]
  constructor <;> norm_num [bAct, eC]

lemma miss_eZ : ¬(eZ.active = true ∧
    distLt (dist2 bAct.position eZ.position) (bAct.radius + eZ.radius) = true) := by
  simp only [distLt, dist2, Bool.and_eq_true, decide_eq_true_eq, not_and]
  intro _
  norm_num [bAct, eZ]

lemma bulletHitsEnemies_cons_hit (b e : GameObject) (es : List GameObject) (s : ℤ)
    (r : List ℤ) (h : e.active = true ∧
      distLt (dist2 b.position e.position) (b.radius + e.radius) = true) :
    bulletHitsEnemies b (e :: es) s r =
      ⟨{ e with position := (respawnPos r).1, active := true } ::
          (bulletHitsEnemies b es (s + 10) (respawnPos r).2).enemies,
        (bulletHitsEnemies b es (s + 10) (respawnPos r).2).score,
        (bulletHitsEnemies b es (s + 10) (respawnPos r).2).rng, true⟩ := by
  simp only [bulletHitsEnemies, if_pos h]

lemma bulletEnemyPass_cons_active (b : GameObject) (bs es : List GameObject) (s : ℤ)
    (r : List ℤ) (h : b.active = true) :
    bulletEnemyPass (b :: bs) es s r =
      ⟨{ b with active := !(bulletHitsEnemies b es s r).hitAny } ::
          (bulletEnemyPass bs (bulletHitsEnemies b es s r).enemies
            (bulletHitsEnemies b es s r).score (bulletHitsEnemies b es s r).rng).bullets,
        (bulletEnemyPass bs (bulletHitsEnemies b es s r).enemies
          (bulletHitsEnemies b es s r).score (bulletHitsEnemies b es s r).rng).enemies,
        (bulletEnemyPass bs (bulletHitsEnemies b es s r).enemies
          (bulletHitsEnemies b es s r).score (bulletHitsEnemies b es s r).rng).score,
        (bulletEnemyPass bs (bulletHitsEnemies b es s r).enemies
          (bulletHitsEnemies b es s r).score (bulletHitsEnemies b es s r).rng).rng⟩ := by
  simp only [bulletEnemyPass, if_pos h]

lemma hitsC : bulletHitsEnemies bAct (eC :: eC :: List.replicate 8 eZ) 0 rC =
    ⟨eR1 :: eR2 :: List.replicate 8 eZ, 20, [], true⟩ := by
  have h8 : ∀ s : ℤ, bulletHitsEnemies bAct (List.replicate 8 eZ) s [] =
      ⟨List.replicate 8 eZ, s, [], false⟩ :=
    fun s => bulletHitsEnemies_replicate_miss bAct eZ 8 s [] miss_eZ
  rw [bulletHitsEnemies_cons_hit _ _ _ _ _ hit_eC]
  simp only [respawnPos_rC]
  rw [bulletHitsEnemies_cons_hit _ _ _ _ _ hit_eC]
  simp only [respawnPos_rC2]
  simp only [h8]
  norm_num [eC, eR1, eR2]

lemma passC : bulletEnemyPass (bAct :: List.replicate 19 fb0)
    (eC :: eC :: List.replicate 8 eZ) 0 rC =
    ⟨{ bAct with active := false } :: List.replicate 19 fb0,
      eR1 :: eR2 :: List.replicate 8 eZ, 20, []⟩ := by
  rw [bulletEnemyPass_cons_active _ _ _ _ _ (rfl : bAct.active = true)]
  simp only [hitsC]
  rw [bulletEnemyPass_replicate_inactive fb0 19 _ _ _ (rfl : fb0.active = false)]
  rfl

lemma countP_active_replicate_fb0 (n : ℕ) :
    (List.replicate n fb0).countP (fun b => b.active) = 0 := by
  induction n with
  | zero => rfl
  | succ n ih =>
    rw [List.replicate_succ, List.countP_cons]
    simp [ih, fb0]

/-- Counterexample to C1 as stated: from the reachable state `gInit`
(one main-loop iteration with fire pressed and the mouse on the player),
`CheckCollisions` is entered with exactly one active bullet, yet that
single bullet consumes two enemies — slots 0 and 1 are both relocated to
the top edge band — and 20 points are awarded in that one call.  The
missing `break` means the deactivated bullet is still tested against
subsequent enemies. -/
theorem C1_counterexample :
    Reachable ratSqrt gInit ∧
    (frame ratSqrt gInit inpC rC).1 = (CheckCollisions preC rC).1 ∧
    preC.bullets.countP (fun b => b.active) = 1 ∧
    ((CheckCollisions preC rC).1).score = preC.score + 20 ∧
    ((CheckCollisions preC rC).1).enemies.get? 0 = some eR1 ∧
    ((CheckCollisions preC rC).1).enemies.get? 1 = some eR2 := by
  have hsc : ∀ (g : GameState) (r : List ℤ), ((CheckCollisions g r).1).score =
      (bulletEnemyPass g.bullets g.enemies g.score r).score := fun g r => rfl
  have hen : ∀ (g : GameState) (r : List ℤ), ((CheckCollisions g r).1).enemies =
      (bulletEnemyPass g.bullets g.enemies g.score r).enemies := fun g r => rfl
  refine ⟨reachable_gZero, ?_, ?_, ?_, ?_, ?_⟩
  · have hgo : gInit.gameOver = false := rfl
    have hfp : inpC.firePressed = true := rfl
    unfold frame
    rw [if_pos hgo]
    simp only [hfp, if_true]
    unfold preC
    rfl
  · rw [preC_bullets, List.countP_cons, countP_active_replicate_fb0]
    norm_num [bAct]
  · rw [hsc preC rC, preC_bullets, preC_enemies, preC_score, passC]
    norm_num
  · rw [hen preC rC, preC_bullets, preC_enemies, preC_score, passC]
    rfl
  · rw [hen preC rC, preC_bullets, preC_enemies, preC_score, passC]
    rfl

end Yar
